import Mathlib

/-!
Shallow embedding of the decision core of the sales-automation repository:
the fingerprint/duplicate gate (`SimpleDuplicateCheck`), the phone
confidence scorer and batch verifier (`PhoneVerificationService`), the
company-verification scorer (`CompanyVerificationService`), the
orchestrator's persistence decision (`EnhancedSalesAutomationService`),
and the four-phase verification pipeline (`CSVCompanyProcessor`).

External collaborators (web search, page scraping, LLM judges, the
spreadsheet sink) are modelled as oracle inputs; everything the services
compute from those inputs is translated from the TypeScript source.
-/

namespace SimpleDuplicateCheck

/-! ## Fingerprinting: `createSimpleKey` (simpleDuplicateCheck.ts lines 82-98) -/

/-- Whitespace characters matched by the JavaScript `\s` class, restricted to
the members relevant for this code base (ASCII whitespace, NBSP, and the
ideographic space). The source removes them with `.replace(/\s+/g, '')` and
`.trim()`. -/
def isJsWhitespace (c : Char) : Bool :=
  c = ' ' || c = '\t' || c = '\n' || c = '\r' || c = '\x0b' || c = '\x0c' ||
  c = ' ' || c = '　'

/-- The five legal-entity suffix words removed by `createSimpleKey`'s first
regex replace `/株式会社|有限会社|合同会社|合資会社|合名会社/g`; each
alternative is four characters long. -/
def suffixWords : List (List Char) :=
  [['株', '式', '会', '社'], ['有', '限', '会', '社'], ['合', '同', '会', '社'],
   ['合', '資', '会', '社'], ['合', '名', '会', '社']]

/-- Administrative-unit suffix characters removed (each individually) from the
location by the regex `/[都道府県市区町村]/g`. -/
def adminChars : List Char :=
  ['都', '道', '府', '県', '市', '区', '町', '村']

/-- Single left-to-right pass removing every occurrence of a legal-entity
suffix word, as the global regex alternation does (the replacement scans
once and never rescans its own output; all alternatives have length four
and are distinct, so alternation order is irrelevant). -/
def stripSuffixes : List Char → List Char
  | c1 :: c2 :: c3 :: c4 :: rest =>
    if [c1, c2, c3, c4] ∈ suffixWords then stripSuffixes rest
    else c1 :: stripSuffixes (c2 :: c3 :: c4 :: rest)
  | l => l

/-- Lowercasing of a single character as JavaScript `toLowerCase` acts on the
alphabet relevant here (ASCII letters are lowered; other characters,
including all CJK characters, are unchanged). -/
def toLowerChar (c : Char) : Char :=
  if 65 ≤ c.toNat ∧ c.toNat ≤ 90 then Char.ofNat (c.toNat + 32) else c

/-- JavaScript `String.prototype.trim`: drop leading and trailing whitespace. -/
def trimWs (l : List Char) : List Char :=
  ((l.dropWhile (fun c => isJsWhitespace c)).reverse.dropWhile
    (fun c => isJsWhitespace c)).reverse

/-- Company-name normalization of `createSimpleKey`: strip legal-entity
suffix words, remove whitespace, lowercase, trim (in source order). -/
def cleanCompany (l : List Char) : List Char :=
  trimWs (((stripSuffixes l).filter (fun c => !isJsWhitespace c)).map toLowerChar)

/-- Location normalization of `createSimpleKey`: remove administrative-unit
suffix characters, remove whitespace, lowercase, trim (in source order). -/
def cleanLocation (l : List Char) : List Char :=
  trimWs (((l.filter (fun c => !(decide (c ∈ adminChars)))).filter
    (fun c => !isJsWhitespace c)).map toLowerChar)

/-- Source `createSimpleKey(company, location)`: the fingerprint key
`cleanCompany ++ "__" ++ cleanLocation`. -/
def createSimpleKey (company location : String) : String :=
  ⟨cleanCompany company.data ++ ['_', '_'] ++ cleanLocation location.data⟩

/-! ## The duplicate gate state (memory cache + refresh timestamp) -/

/-- One row of the sink (Google Sheets sales data); only the two fields the
duplicate gate reads (`企業名` and `住所`). -/
structure SalesRow where
  companyName : String
  address : String
deriving DecidableEq

/-- An insertion-ordered string-keyed map, modelling the JavaScript `Map`
backing `memoryCache`. -/
def cacheGet (cache : List (String × Bool)) (k : String) : Option Bool :=
  (cache.find? (fun p => p.1 = k)).map (fun p => p.2)

/-- JavaScript `Map.set`: update the entry for the key in place, or append a
new entry. -/
def cacheSet : List (String × Bool) → String → Bool → List (String × Bool)
  | [], k, v => [(k, v)]
  | (k0, v0) :: rest, k, v =>
    if k0 = k then (k0, v) :: rest else (k0, v0) :: cacheSet rest k v

/-- The mutable state of `SimpleDuplicateCheck`: the memory cache and the
last refresh timestamp (milliseconds). -/
structure GateState where
  cache : List (String × Bool)
  lastCacheUpdate : Nat
deriving DecidableEq

/-- Source `cacheExpiry = 30 * 60 * 1000` (30 minutes). -/
def cacheExpiry : Nat := 30 * 60 * 1000

/-- Source `isValidCache()`: non-empty cache and not yet expired. -/
def isValidCache (s : GateState) (now : Nat) : Bool :=
  decide (0 < s.cache.length) && decide (now - s.lastCacheUpdate < cacheExpiry)

/-- Source `addToCache(company, location)`: synchronously insert the key with value
`true`. -/
def addToCache (s : GateState) (company location : String) : GateState :=
  { s with cache := cacheSet s.cache (createSimpleKey company location) true }

/-- Rebuild the cache from the sink rows: rows with non-empty name and
address are keyed and inserted with value `true` (refreshCache's loop). -/
def populateCache (rows : List SalesRow) : List (String × Bool) :=
  rows.foldl
    (fun c r =>
      if r.companyName ≠ "" ∧ r.address ≠ "" then
        cacheSet c (createSimpleKey r.companyName r.address) true
      else c)
    []

/-- Source `refreshCache()`: read the full sink; on success clear and repopulate the
cache and stamp the time; a sink failure is rethrown and leaves the state
untouched (the `memoryCache.clear()` only runs after the read succeeds). -/
def refreshCache (_s : GateState) (now : Nat)
    (sink : Except String (List SalesRow)) : Except String GateState :=
  match sink with
  | Except.error e => Except.error e
  | Except.ok rows => Except.ok { cache := populateCache rows, lastCacheUpdate := now }

/-- What happened to the cache during one `isDuplicate` call. -/
inductive RefreshOutcome where
  | noRefresh
  | refreshed
  | failed (e : String)
deriving DecidableEq

/-- Result of one `isDuplicate` call: the boolean answer, the state after the
call, and whether the call refreshed from the sink. -/
structure DupResult where
  answer : Bool
  state : GateState
  outcome : RefreshOutcome
deriving DecidableEq

/-- Source `isDuplicate(company, location)` (simpleDuplicateCheck.ts lines 21-39):
answer from the unexpired cache when it holds the key; otherwise refresh if
needed (`refreshCacheIfNeeded`) and answer `get(key) || false`; a refresh
failure is caught and answered with `false`. -/
def isDuplicate (s : GateState) (now : Nat)
    (sink : Except String (List SalesRow)) (company location : String) : DupResult :=
  let key := createSimpleKey company location
  if isValidCache s now && (cacheGet s.cache key).isSome then
    { answer := (cacheGet s.cache key).getD false, state := s, outcome := RefreshOutcome.noRefresh }
  else if isValidCache s now then
    { answer := (cacheGet s.cache key).getD false, state := s, outcome := RefreshOutcome.noRefresh }
  else
    match refreshCache s now sink with
    | Except.ok s1 =>
      { answer := (cacheGet s1.cache key).getD false, state := s1, outcome := RefreshOutcome.refreshed }
    | Except.error e =>
      { answer := false, state := s, outcome := RefreshOutcome.failed e }

/-! ## Batch filtering: `filterDuplicates` (lines 44-69) -/

/-- A batch item as consumed by `filterDuplicates` (the `T extends {company,
location}` bound; any payload is irrelevant to the filter). -/
structure Item where
  company : String
  location : String
deriving DecidableEq

/-- The `items.filter` callback of `filterDuplicates`, with its in-place
cache mutation: a key not present (or present with value `false`) is kept
and the key is inserted with value `false`. -/
def filterLoop (cache : List (String × Bool)) :
    List Item → List Item × List (String × Bool)
  | [] => ([], cache)
  | item :: rest =>
    let key := createSimpleKey item.company item.location
    let isDup := (cacheGet cache key).getD false
    let cache1 := if isDup then cache else cacheSet cache key false
    let res := filterLoop cache1 rest
    (if isDup then res.1 else item :: res.1, res.2)

/-- Source `filterDuplicates(items)`: refresh the cache from the sink, then filter;
if the refresh throws, the error is caught and every item is passed
through with the state unchanged. -/
def filterDuplicates (s : GateState) (now : Nat)
    (sink : Except String (List SalesRow)) (items : List Item) :
    List Item × GateState :=
  match refreshCache s now sink with
  | Except.error _ => (items, s)
  | Except.ok s1 =>
    let res := filterLoop s1.cache items
    (res.1, { cache := res.2, lastCacheUpdate := s1.lastCacheUpdate })

end SimpleDuplicateCheck

namespace PhoneVerificationService

/-! ## Phone format validation and the 0-100 phone confidence score
(phoneVerificationService.ts) -/

/-- Decide whether every character of the list is an ASCII digit (`\d`). -/
def allDigits (l : List Char) : Bool := l.all (fun c => c.isDigit)

/-- Pattern `^0\d{1,4}-\d{1,4}-\d{3,4}$`. -/
def pattern1 (l : List Char) : Bool :=
  match l.splitOn '-' with
  | [a, b, c] =>
    (match a with
     | '0' :: ds => decide (1 ≤ ds.length) && decide (ds.length ≤ 4) && allDigits ds
     | _ => false)
    && (decide (1 ≤ b.length) && decide (b.length ≤ 4) && allDigits b)
    && (decide (3 ≤ c.length) && decide (c.length ≤ 4) && allDigits c)
  | _ => false

/-- Pattern `^0\d{9,10}$`. -/
def pattern2 (l : List Char) : Bool :=
  match l with
  | '0' :: ds => decide (9 ≤ ds.length) && decide (ds.length ≤ 10) && allDigits ds
  | _ => false

/-- Pattern `^\+81-\d{1,4}-\d{1,4}-\d{3,4}$`. -/
def pattern3 (l : List Char) : Bool :=
  match l.splitOn '-' with
  | [a, b, c, d] =>
    decide (a = ['+', '8', '1'])
    && (decide (1 ≤ b.length) && decide (b.length ≤ 4) && allDigits b)
    && (decide (1 ≤ c.length) && decide (c.length ≤ 4) && allDigits c)
    && (decide (3 ≤ d.length) && decide (d.length ≤ 4) && allDigits d)
  | _ => false

/-- Pattern `^0\d{2,4}\s\d{1,4}\s\d{3,4}$` (space separated; it can never
match the cleaned input, which has all whitespace removed, but it is part
of the source's pattern list). -/
def pattern4 (l : List Char) : Bool :=
  match l.splitOn ' ' with
  | [a, b, c] =>
    (match a with
     | '0' :: ds => decide (2 ≤ ds.length) && decide (ds.length ≤ 4) && allDigits ds
     | _ => false)
    && (decide (1 ≤ b.length) && decide (b.length ≤ 4) && allDigits b)
    && (decide (3 ≤ c.length) && decide (c.length ≤ 4) && allDigits c)
  | _ => false

/-- Source `validatePhoneFormat(phone)`: strip every character that is not a digit,
`-` or `+`, then test the four anchored patterns. -/
def validatePhoneFormat (phone : String) : Bool :=
  let cleanPhone := phone.data.filter (fun c => c.isDigit || c = '-' || c = '+')
  pattern1 cleanPhone || pattern2 cleanPhone || pattern3 cleanPhone || pattern4 cleanPhone

/-- Source `calculateConfidence` (lines 231-259): 20 for a valid format, 40 for a
confirmed company association, 10 per source capped at 30, 10 for a
business listing, the sum clamped to 100. -/
def calculateConfidence (phoneFormatValid companyAssociated : Bool)
    (sources : List String) (businessListingFound : Bool) : Nat :=
  let score := 0
  let score := if phoneFormatValid then score + 20 else score
  let score := if companyAssociated then score + 40 else score
  let score := score + min 30 (sources.length * 10)
  let score := if businessListingFound then score + 10 else score
  min 100 score

/-- The `details` sub-record of a `PhoneVerificationResult`. -/
structure PhoneVerificationDetails where
  phoneFormatValid : Bool
  companyAssociated : Bool
  multipleSourcesFound : Bool
  businessListingFound : Bool
deriving DecidableEq

/-- Record `PhoneVerificationResult` as returned by `verifyPhone` and
`verifyMultiplePhones`. -/
structure PhoneVerificationResult where
  phone : String
  company : String
  verified : Bool
  confidence : Nat
  sources : List String
  details : PhoneVerificationDetails
deriving DecidableEq

/-- Outcome of `verifyCompanyAssociation` (an oracle for the search-derived
association evidence). -/
structure AssocResult where
  companyAssociated : Bool
  sources : List String
deriving DecidableEq

/-- Outcome of `checkBusinessListings` (an oracle for the listing evidence). -/
structure ListingResult where
  businessListingFound : Bool
  sources : List String
deriving DecidableEq

/-- Source `verifyPhone(phone, company)` given the two gatherer outcomes: assembles
the result exactly as lines 32-70 do. Note the spread
`{phoneFormatValid, ...associationResults, ...listingResults}` passed to
`calculateConfidence` lets the listing sources shadow the association
sources, so the score's source count is the listing source count. -/
def verifyPhone (phone company : String) (assoc : AssocResult)
    (listing : ListingResult) : PhoneVerificationResult :=
  let phoneFormatValid := validatePhoneFormat phone
  let confidence := calculateConfidence phoneFormatValid assoc.companyAssociated
    listing.sources listing.businessListingFound
  { phone := phone
    company := company
    verified := decide (70 ≤ confidence)
    confidence := confidence
    sources := assoc.sources ++ listing.sources
    details :=
      { phoneFormatValid := phoneFormatValid
        companyAssociated := assoc.companyAssociated
        multipleSourcesFound := decide (1 < assoc.sources.length)
        businessListingFound := listing.businessListingFound } }

/-- The fallback result pushed by `verifyMultiplePhones`' catch block when
verifying one pair throws (lines 283-300). -/
def fallbackResult (phone company : String) : PhoneVerificationResult :=
  { phone := phone
    company := company
    verified := false
    confidence := 0
    sources := []
    details :=
      { phoneFormatValid := validatePhoneFormat phone
        companyAssociated := false
        multipleSourcesFound := false
        businessListingFound := false } }

/-- The loop of `verifyMultiplePhones`: the behaviour of each inner
`verifyPhone` call (which may throw) is an oracle indexed by position. -/
def verifyMultiplePhonesAux (env : Nat → Except String PhoneVerificationResult) :
    Nat → List (String × String) → List PhoneVerificationResult
  | _, [] => []
  | i, p :: rest =>
    (match env i with
     | Except.ok r => r
     | Except.error _ => fallbackResult p.1 p.2) :: verifyMultiplePhonesAux env (i + 1) rest

/-- Source `verifyMultiplePhones(phoneCompanyPairs)` (lines 264-305): verify each
pair in order; a throw for one pair is caught and replaced by the fallback
result, and processing continues with the remaining pairs. -/
def verifyMultiplePhones (env : Nat → Except String PhoneVerificationResult)
    (pairs : List (String × String)) : List PhoneVerificationResult :=
  verifyMultiplePhonesAux env 0 pairs

end PhoneVerificationService

namespace CompanyVerificationService

/-! ## The end-to-end company-verification score (part_007 lines 296-324) -/

/-- Source `calculateConfidence`: 40 company existence, 20 official site, 25 phone
verified, 10 contact info extracted, 5 multiple sources, clamped to 100. -/
def calculateConfidence (companyExists officialSiteFound phoneVerified
    contactInfoExtracted multipleSourcesFound : Bool) : Nat :=
  let score := 0
  let score := if companyExists then score + 40 else score
  let score := if officialSiteFound then score + 20 else score
  let score := if phoneVerified then score + 25 else score
  let score := if contactInfoExtracted then score + 10 else score
  let score := if multipleSourcesFound then score + 5 else score
  min 100 score

/-- The `verified` flag of `comprehensiveCompanySearch`'s result (part_007
line 280): the confidence meets the 60 threshold. -/
def comprehensiveVerified (companyExists officialSiteFound phoneVerified
    contactInfoExtracted multipleSourcesFound : Bool) : Bool :=
  decide (60 ≤ calculateConfidence companyExists officialSiteFound phoneVerified
    contactInfoExtracted multipleSourcesFound)

end CompanyVerificationService

namespace EnhancedSalesAutomationService

/-! ## The orchestrator's persistence decision (part_002 lines 203-216) -/

/-- The per-candidate counters touched by the save branch of
`runAutomation`'s loop. -/
structure LoopStats where
  verifiedJobs : Nat
  savedJobs : Nat
deriving DecidableEq

/-- The save branch of `runAutomation` for one candidate: persist (save to
the sink, admit to the duplicate cache, bump both counters) exactly when
the candidate's confidence is at least 60; the returned flag is whether
the candidate was persisted. -/
def persistCandidate (stats : LoopStats) (confidence : Nat) : LoopStats × Bool :=
  if 60 ≤ confidence then
    ({ verifiedJobs := stats.verifiedJobs + 1, savedJobs := stats.savedJobs + 1 }, true)
  else (stats, false)

end EnhancedSalesAutomationService

namespace CSVCompanyProcessor

/-! ## The four-phase pipeline of `processCompany` (csvCompanyProcessor.ts
lines 179-235), with gatherer calls recorded in a log. -/

/-- The contact information relevant to the pipeline's control flow. -/
structure ContactInfo where
  phoneNumber : Option String
  email : Option String
deriving DecidableEq

/-- One externally visible gatherer call. -/
inductive GatherCall where
  | jobQuery (i : Nat)
  | officialLookup
  | directQuery (i j : Nat)
  | phoneReverse (phone : String)
deriving DecidableEq

/-- Terminal result of `processCompany` for one candidate: `accepted`
corresponds to `processed = true` with a scraping result, `rejected r` to
`processed = false` with error string `r`. -/
inductive PResult where
  | accepted (c : ContactInfo)
  | rejected (reason : String)
deriving DecidableEq

/-- Oracle environment for one candidate's pipeline run: the outcome of each
hiring-signal query, of the official-site lookup, of each direct-search
extraction (template `i`, result link `j`), and of the reverse-search
name-match judge. -/
structure PipelineEnv where
  jobSignal : Nat → Bool
  official : Option ContactInfo
  direct : Nat → Nat → Option ContactInfo
  nameMatch : String → Bool

/-- The query loop of `checkJobPosting` (lines 240-272): try each of the five
strict queries in order, returning `true` at the first company-specific
hit. -/
def runJobQueries (env : PipelineEnv) : List Nat → Bool × List GatherCall
  | [] => (false, [])
  | i :: rest =>
    if env.jobSignal i then (true, [GatherCall.jobQuery i])
    else
      let res := runJobQueries env rest
      (res.1, GatherCall.jobQuery i :: res.2)

/-- Phase 1, `checkJobPosting`: the five query templates. -/
def checkJobPosting (env : PipelineEnv) : Bool × List GatherCall :=
  runJobQueries env [0, 1, 2, 3, 4]

/-- The success test of an extraction: `contactInfo && (contactInfo.phoneNumber
|| contactInfo.email)`. -/
def hasContactData (c : ContactInfo) : Bool :=
  c.phoneNumber.isSome || c.email.isSome

/-- The inner loop of `tryDirectSearch` over the (up to three) result links
of template `i`: return the first extraction holding a phone or email. -/
def runDirectResults (env : PipelineEnv) (i : Nat) :
    List Nat → Option ContactInfo × List GatherCall
  | [] => (none, [])
  | j :: rest =>
    match env.direct i j with
    | some c =>
      if hasContactData c then (some c, [GatherCall.directQuery i j])
      else
        let res := runDirectResults env i rest
        (res.1, GatherCall.directQuery i j :: res.2)
    | none =>
      let res := runDirectResults env i rest
      (res.1, GatherCall.directQuery i j :: res.2)

/-- The outer loop of `tryDirectSearch` over the five query templates. -/
def runDirectTemplates (env : PipelineEnv) :
    List Nat → Option ContactInfo × List GatherCall
  | [] => (none, [])
  | i :: rest =>
    let res := runDirectResults env i [0, 1, 2]
    match res.1 with
    | some c => (some c, res.2)
    | none =>
      let res2 := runDirectTemplates env rest
      (res2.1, res.2 ++ res2.2)

/-- Phase 3, `tryDirectSearch` (lines 507-570): five templates, up to three
result links each, stopping at the first extraction with a phone or
email. -/
def tryDirectSearch (env : PipelineEnv) : Option ContactInfo × List GatherCall :=
  runDirectTemplates env [0, 1, 2, 3, 4]

/-- Phase 4, `verifyContact` (lines 575-610): with no phone number the check
auto-passes with no reverse search; otherwise one reverse search on the
bare phone number, judged by the name-match oracle. -/
def verifyContact (env : PipelineEnv) (c : ContactInfo) : Bool × List GatherCall :=
  match c.phoneNumber with
  | none => (true, [])
  | some p => (env.nameMatch p, [GatherCall.phoneReverse p])

/-- Phases 3-4 as wired in `processCompany` (lines 209-220): one direct
search; if it produced a contact, one cross-check; a cross-check failure
or an empty search is terminal with reason `連絡先取得失敗`. -/
def phase3 (env : PipelineEnv) (log : List GatherCall) : PResult × List GatherCall :=
  let d := tryDirectSearch env
  match d.1 with
  | some c =>
    let v := verifyContact env c
    if v.1 then (PResult.accepted c, log ++ d.2 ++ v.2)
    else (PResult.rejected "連絡先取得失敗", log ++ d.2 ++ v.2)
  | none => (PResult.rejected "連絡先取得失敗", log ++ d.2)

/-- Source `processCompany` (lines 179-235): Phase 1 failure is terminal with reason
`求人募集なし`; otherwise Phase 2 (official contact), whose cross-checked
success is terminal acceptance and whose failure falls through to Phase 3. -/
def processCompany (env : PipelineEnv) : PResult × List GatherCall :=
  let jp := checkJobPosting env
  if jp.1 = false then (PResult.rejected "求人募集なし", jp.2)
  else
    let log2 := jp.2 ++ [GatherCall.officialLookup]
    match env.official with
    | some c =>
      let v := verifyContact env c
      if v.1 then (PResult.accepted c, log2 ++ v.2)
      else phase3 env (log2 ++ v.2)
    | none => phase3 env log2

/-! ### Concrete oracle environments used to evaluate the pipeline -/

/-- Environment in which every hiring-signal query comes back empty and every
other gatherer is silent. -/
def envNoJobs : PipelineEnv :=
  { jobSignal := fun _ => false
    official := none
    direct := fun _ _ => none
    nameMatch := fun _ => false }

/-- Environment with a hiring signal, no official-site hit, a phone-bearing
extraction at direct-search template 1 result 1 and another usable
extraction at result 2, and a reverse search that never corroborates the
company name. -/
def envCrossFail : PipelineEnv :=
  { jobSignal := fun i => decide (i = 0)
    official := none
    direct := fun i j =>
      if i = 0 ∧ j = 0 then some { phoneNumber := some "011-111-1111", email := none }
      else if i = 0 ∧ j = 1 then
        some { phoneNumber := some "011-222-2222", email := some "info@example.jp" }
      else none
    nameMatch := fun _ => false }

/-- Environment with a hiring signal and an official-site contact whose phone
fails the reverse-search cross-check. -/
def envOffFail : PipelineEnv :=
  { jobSignal := fun i => decide (i = 0)
    official := some { phoneNumber := some "011-333-3333", email := none }
    direct := fun _ _ => none
    nameMatch := fun _ => false }

/-- Environment with a hiring signal, no official-site hit, and an email-only
extraction at direct-search template 2. -/
def envEmailOnly : PipelineEnv :=
  { jobSignal := fun i => decide (i = 0)
    official := none
    direct := fun i j =>
      if i = 1 ∧ j = 0 then some { phoneNumber := none, email := some "info@example.jp" }
      else none
    nameMatch := fun _ => false }

end CSVCompanyProcessor

/-! # Helper lemmas -/

namespace SimpleDuplicateCheck

theorem cacheGet_cacheSet_self (cache : List (String × Bool)) (k : String) (v : Bool) :
    cacheGet (cacheSet cache k v) k = some v := by
  induction cache with
  | nil => simp [cacheSet, cacheGet]
  | cons p rest ih =>
    obtain ⟨k0, v0⟩ := p
    by_cases h : k0 = k
    · subst h
      simp [cacheSet, cacheGet]
    · simp only [cacheSet, if_neg h]
      simpa [cacheGet, List.find?, h] using ih

theorem cacheGet_cacheSet_ne (cache : List (String × Bool)) (k k2 : String) (v : Bool)
    (h : k ≠ k2) : cacheGet (cacheSet cache k2 v) k = cacheGet cache k := by
  induction cache with
  | nil => simp [cacheSet, cacheGet, List.find?, Ne.symm h]
  | cons p rest ih =>
    obtain ⟨k0, v0⟩ := p
    by_cases h0 : k0 = k2
    · subst h0
      simp [cacheSet, cacheGet, List.find?, Ne.symm h]
    · simp only [cacheSet, if_neg h0]
      by_cases hk : k0 = k
      · simp [cacheGet, List.find?, hk]
      · simpa [cacheGet, List.find?, hk] using ih

end SimpleDuplicateCheck

/-! # Claim theorems -/

namespace SimpleDuplicateCheck

/-- Claim C1 (code evaluated at the failing input): on the batch
`[A, A, B]` where both `A` entries carry the same fingerprint key and the
sink is empty, `filterDuplicates` returns all three items — the second
occurrence of the key is NOT dropped, because the filter caches fresh keys
with value `false` and `get(key) || false` then still reads as
not-a-duplicate. The claim (and the spec, and the code's own comment
"今後の重複防止") require the output `[A, B]`. -/
theorem filterDuplicates_same_batch_duplicate_passes :
    (filterDuplicates ⟨[], 0⟩ 0 (Except.ok [])
      [⟨"Acme", "Tokyo"⟩, ⟨"Acme", "Tokyo"⟩, ⟨"Beta", "Osaka"⟩]).1 =
      [⟨"Acme", "Tokyo"⟩, ⟨"Acme", "Tokyo"⟩, ⟨"Beta", "Osaka"⟩]
    ∧ (filterDuplicates ⟨[], 0⟩ 0 (Except.ok [])
      [⟨"Acme", "Tokyo"⟩, ⟨"Acme", "Tokyo"⟩, ⟨"Beta", "Osaka"⟩]).1 ≠
      [⟨"Acme", "Tokyo"⟩, ⟨"Beta", "Osaka"⟩] := by
  constructor
  · decide
  · decide

/-- Claim C3: `addToCache` inserts the admitted key into the in-memory index
synchronously (it maps to `true` in the returned state), the entry
survives later admissions, within the expiry window `isDuplicate` answers
`true` from memory without refreshing, and in general every `isDuplicate`
answer produced without a refresh from the sink is `true`. -/
theorem isDuplicate_after_addToCache (s : GateState) (c l : String) (now : Nat)
    (sink : Except String (List SalesRow)) :
    cacheGet (addToCache s c l).cache (createSimpleKey c l) = some true
    ∧ (∀ c2 l2, cacheGet (addToCache (addToCache s c l) c2 l2).cache
        (createSimpleKey c l) = some true)
    ∧ (isValidCache (addToCache s c l) now = true →
        isDuplicate (addToCache s c l) now sink c l =
          { answer := true, state := addToCache s c l,
            outcome := RefreshOutcome.noRefresh })
    ∧ ((isDuplicate (addToCache s c l) now sink c l).outcome = RefreshOutcome.noRefresh →
        (isDuplicate (addToCache s c l) now sink c l).answer = true) := by
  have hget : cacheGet (addToCache s c l).cache (createSimpleKey c l) = some true :=
    cacheGet_cacheSet_self s.cache (createSimpleKey c l) true
  refine ⟨hget, ?_, ?_, ?_⟩
  · intro c2 l2
    by_cases h : createSimpleKey c l = createSimpleKey c2 l2
    · rw [addToCache, h]
      exact cacheGet_cacheSet_self _ _ _
    · rw [addToCache]
      show cacheGet (cacheSet (addToCache s c l).cache (createSimpleKey c2 l2) true)
        (createSimpleKey c l) = some true
      rw [cacheGet_cacheSet_ne _ _ _ _ h]
      exact hget
  · intro hv
    simp [isDuplicate, hv, hget]
  · intro hout
    by_cases hv : isValidCache (addToCache s c l) now
    · simp [isDuplicate, hv, hget]
    · exfalso
      simp only [isDuplicate, hv, Bool.false_and, if_false, Bool.false_eq_true] at hout
      cases sink with
      | ok rows => simp [refreshCache] at hout
      | error e => simp [refreshCache] at hout

/-- Claim C3 witness: a freshly admitted identity is reported duplicate from
memory before any refresh. -/
theorem isDuplicate_after_addToCache_witness :
    isDuplicate (addToCache ⟨[], 0⟩ "Acme" "Tokyo") 0 (Except.ok []) "Acme" "Tokyo" =
      { answer := true, state := addToCache ⟨[], 0⟩ "Acme" "Tokyo",
        outcome := RefreshOutcome.noRefresh } :=
  (isDuplicate_after_addToCache ⟨[], 0⟩ "Acme" "Tokyo" 0 (Except.ok [])).2.2.1 (by decide)

/-- Claim C4: when the sink read throws during a duplicate-gate refresh,
`refreshCache` propagates the error to its caller instead of swallowing
it, and `isDuplicate` fails open: it answers `false` and leaves the
previous index contents and refresh timestamp untouched. -/
theorem isDuplicate_refresh_failure (s : GateState) (now : Nat) (c l e : String)
    (h : isValidCache s now = false) :
    refreshCache s now (Except.error e) = Except.error e
    ∧ isDuplicate s now (Except.error e) c l =
        { answer := false, state := s, outcome := RefreshOutcome.failed e } := by
  refine ⟨rfl, ?_⟩
  simp [isDuplicate, h, refreshCache]

/-- Claim C4 witness: with an expired cache and a throwing sink, the gate
answers `false`, keeps its state, and reports the error. -/
theorem isDuplicate_refresh_failure_witness :
    refreshCache ⟨[("k", true)], 0⟩ cacheExpiry (Except.error "boom") = Except.error "boom"
    ∧ isDuplicate ⟨[("k", true)], 0⟩ cacheExpiry (Except.error "boom") "Acme" "Tokyo" =
        { answer := false, state := ⟨[("k", true)], 0⟩,
          outcome := RefreshOutcome.failed "boom" } :=
  isDuplicate_refresh_failure ⟨[("k", true)], 0⟩ cacheExpiry "Acme" "Tokyo" "boom" (by decide)

end SimpleDuplicateCheck

namespace PhoneVerificationService

/-- Claim C2: the phone confidence score is 20 for a valid format plus 40 for
a confirmed association plus 10 per source capped at 30 plus 10 for a
business listing, clamped to 100; an all-true input with at least 3
sources scores exactly 100, the all-false empty input scores 0, and a 4th
source adds nothing beyond the 30-point cap. -/
theorem calculateConfidence_weight_table :
    (∀ (pf ca bl : Bool) (sources : List String),
      calculateConfidence pf ca sources bl =
        min 100 ((if pf then 20 else 0) + (if ca then 40 else 0) +
          min 30 (sources.length * 10) + (if bl then 10 else 0)))
    ∧ (∀ sources : List String, 3 ≤ sources.length →
        calculateConfidence true true sources true = 100)
    ∧ calculateConfidence false false [] false = 0
    ∧ (∀ s1 s2 s3 s4 : String,
        calculateConfidence true true [s1, s2, s3, s4] true =
          calculateConfidence true true [s1, s2, s3] true) := by
  refine ⟨?_, ?_, rfl, ?_⟩
  · intro pf ca bl sources
    cases pf <;> cases ca <;> cases bl <;> simp [calculateConfidence]
  · intro sources h
    have h30 : min 30 (sources.length * 10) = 30 := by omega
    simp [calculateConfidence, h30]
  · intro s1 s2 s3 s4
    rfl

/-- Claim C2 witness: three sources with everything true reach exactly 100. -/
theorem calculateConfidence_weight_table_witness :
    calculateConfidence true true ["a", "b", "c"] true = 100 :=
  calculateConfidence_weight_table.2.1 ["a", "b", "c"] (by decide)

end PhoneVerificationService

/-- Claim C9: the end-to-end company-verification score is the fixed
40/20/25/10/5 table clamped to 100 (all signals firing sum to exactly
100); a company-verification result is `verified` exactly when that score
is at least 60; the orchestrator persists a candidate exactly when its
confidence is at least 60; and phone verification marks its result
`verified` exactly when its own (distinct) score is at least 70. -/
theorem company_confidence_table_and_thresholds :
    (∀ ce osf pv cie msf : Bool,
      CompanyVerificationService.calculateConfidence ce osf pv cie msf =
        min 100 ((if ce then 40 else 0) + (if osf then 20 else 0) +
          (if pv then 25 else 0) + (if cie then 10 else 0) + (if msf then 5 else 0)))
    ∧ CompanyVerificationService.calculateConfidence true true true true true = 100
    ∧ (∀ ce osf pv cie msf : Bool,
        CompanyVerificationService.comprehensiveVerified ce osf pv cie msf =
          decide (60 ≤ CompanyVerificationService.calculateConfidence ce osf pv cie msf))
    ∧ (∀ (stats : EnhancedSalesAutomationService.LoopStats) (conf : Nat),
        (EnhancedSalesAutomationService.persistCandidate stats conf).2 = decide (60 ≤ conf))
    ∧ (∀ (phone company : String) (assoc : PhoneVerificationService.AssocResult)
        (listing : PhoneVerificationService.ListingResult),
        (PhoneVerificationService.verifyPhone phone company assoc listing).verified =
          decide (70 ≤ (PhoneVerificationService.verifyPhone phone company assoc listing).confidence)) := by
  refine ⟨by decide, by decide, by decide, ?_, ?_⟩
  · intro stats conf
    by_cases h : 60 ≤ conf <;>
      simp [EnhancedSalesAutomationService.persistCandidate, h]
  · intro phone company assoc listing
    rfl

namespace CSVCompanyProcessor

/-- Claim C6: when all 5 hiring-signal query templates find no
company-specific corroboration, `processCompany` terminates the candidate
with rejection reason `求人募集なし` and the gatherer log holds exactly the
five Phase-1 job queries — no Phase 2, 3 or 4 call is made. -/
theorem processCompany_no_hiring_signal (env : PipelineEnv)
    (h : ∀ i, i < 5 → env.jobSignal i = false) :
    processCompany env =
      (PResult.rejected "求人募集なし",
       [GatherCall.jobQuery 0, GatherCall.jobQuery 1, GatherCall.jobQuery 2,
        GatherCall.jobQuery 3, GatherCall.jobQuery 4]) := by
  have h0 := h 0 (by omega)
  have h1 := h 1 (by omega)
  have h2 := h 2 (by omega)
  have h3 := h 3 (by omega)
  have h4 := h 4 (by omega)
  simp [processCompany, checkJobPosting, runJobQueries, h0, h1, h2, h3, h4]

/-- Claim C6 witness: the all-silent environment is rejected for lack of a
hiring signal after exactly the five job queries. -/
theorem processCompany_no_hiring_signal_witness :
    processCompany envNoJobs =
      (PResult.rejected "求人募集なし",
       [GatherCall.jobQuery 0, GatherCall.jobQuery 1, GatherCall.jobQuery 2,
        GatherCall.jobQuery 3, GatherCall.jobQuery 4]) :=
  processCompany_no_hiring_signal envNoJobs (fun _ _ => rfl)

/-- Claim C7 counterexample: with a contact extracted at direct-search
template 1 result 1 whose phone fails the reverse-search cross-check, the
pipeline rejects the candidate outright with `連絡先取得失敗` and never
tries result 2 of the same template — even though result 2 holds another
usable contact — contradicting the claimed fallback into the producing
step's loop. -/
theorem processCompany_crosscheck_counterexample :
    processCompany envCrossFail =
      (PResult.rejected "連絡先取得失敗",
       [GatherCall.jobQuery 0, GatherCall.officialLookup, GatherCall.directQuery 0 0,
        GatherCall.phoneReverse "011-111-1111"])
    ∧ GatherCall.directQuery 0 1 ∉ (processCompany envCrossFail).2
    ∧ envCrossFail.direct 0 1 =
        some { phoneNumber := some "011-222-2222", email := some "info@example.jp" } := by
  refine ⟨by decide, by decide, by decide⟩

/-- Claim C7 (amended): a Phase-4 cross-check failure for the official-site
contact makes the pipeline fall through to Phase 3 (the direct search) —
not retry the official lookup — and a cross-check failure for the
direct-search contact is terminal with reason `連絡先取得失敗`, with no
further direct-search attempt. -/
theorem processCompany_crosscheck_fallthrough (env : PipelineEnv) :
    (∀ (c : ContactInfo) (p : String) (log1 : List GatherCall),
      checkJobPosting env = (true, log1) → env.official = some c →
      c.phoneNumber = some p → env.nameMatch p = false →
      processCompany env =
        phase3 env (log1 ++ [GatherCall.officialLookup, GatherCall.phoneReverse p]))
    ∧ (∀ (log : List GatherCall) (c : ContactInfo) (p : String),
      (tryDirectSearch env).1 = some c → c.phoneNumber = some p →
      env.nameMatch p = false →
      phase3 env log =
        (PResult.rejected "連絡先取得失敗",
         log ++ (tryDirectSearch env).2 ++ [GatherCall.phoneReverse p])) := by
  constructor
  · intro c p log1 hjp hoff hp hm
    simp [processCompany, hjp, hoff, verifyContact, hp, hm]
  · intro log c p hd hp hm
    simp [phase3, hd, verifyContact, hp, hm]

/-- Claim C7 amended witness: both fallback behaviours evaluated on concrete
environments. -/
theorem processCompany_crosscheck_fallthrough_witness :
    processCompany envOffFail =
      phase3 envOffFail
        [GatherCall.jobQuery 0, GatherCall.officialLookup,
         GatherCall.phoneReverse "011-333-3333"]
    ∧ phase3 envCrossFail [] =
        (PResult.rejected "連絡先取得失敗",
         [GatherCall.directQuery 0 0, GatherCall.phoneReverse "011-111-1111"]) := by
  constructor
  · have h := (processCompany_crosscheck_fallthrough envOffFail).1
      { phoneNumber := some "011-333-3333", email := none } "011-333-3333"
      [GatherCall.jobQuery 0] (by decide) (by decide) (by decide) (by decide)
    simpa using h
  · have h := (processCompany_crosscheck_fallthrough envCrossFail).2 []
      { phoneNumber := some "011-111-1111", email := none } "011-111-1111"
      (by decide) (by decide) (by decide)
    simpa using h

/-- Claim C8: a contact without a phone number auto-passes the Phase-4
cross-check with no reverse search at all, and a candidate whose only
extracted contact is an email (found at direct-search template 2) reaches
the accepted terminal state. -/
theorem verifyContact_no_phone_autopass :
    (∀ (env : PipelineEnv) (c : ContactInfo), c.phoneNumber = none →
      verifyContact env c = (true, []))
    ∧ processCompany envEmailOnly =
        (PResult.accepted { phoneNumber := none, email := some "info@example.jp" },
         [GatherCall.jobQuery 0, GatherCall.officialLookup,
          GatherCall.directQuery 0 0, GatherCall.directQuery 0 1, GatherCall.directQuery 0 2,
          GatherCall.directQuery 1 0]) := by
  constructor
  · intro env c hp
    simp [verifyContact, hp]
  · decide

/-- Claim C8 witness: the auto-pass evaluated on a concrete email-only
contact. -/
theorem verifyContact_no_phone_autopass_witness :
    verifyContact envNoJobs { phoneNumber := none, email := some "a@b.jp" } = (true, []) :=
  verifyContact_no_phone_autopass.1 envNoJobs
    { phoneNumber := none, email := some "a@b.jp" } rfl

end CSVCompanyProcessor

namespace PhoneVerificationService

theorem verifyMultiplePhonesAux_length (env : Nat → Except String PhoneVerificationResult) :
    ∀ (start : Nat) (pairs : List (String × String)),
    (verifyMultiplePhonesAux env start pairs).length = pairs.length := by
  intro start pairs
  induction pairs generalizing start with
  | nil => rfl
  | cons p rest ih => simp [verifyMultiplePhonesAux, ih]

theorem verifyMultiplePhonesAux_getElem? (env : Nat → Except String PhoneVerificationResult) :
    ∀ (pairs : List (String × String)) (start i : Nat),
    (verifyMultiplePhonesAux env start pairs).get? i =
      (pairs.get? i).map (fun p =>
        match env (start + i) with
        | Except.ok r => r
        | Except.error _ => fallbackResult p.1 p.2) := by
  intro pairs
  induction pairs with
  | nil => intro start i; simp [verifyMultiplePhonesAux]
  | cons p rest ih =>
    intro start i
    cases i with
    | zero => simp [verifyMultiplePhonesAux]
    | succ n =>
      simp only [verifyMultiplePhonesAux, List.get?_cons_succ]
      rw [ih (start + 1) n]
      have harg : start + 1 + n = start + (n + 1) := by omega
      rw [harg]

/-- Claim C10: `verifyMultiplePhones` returns one result per input pair, in
input order; a pair whose verification succeeds keeps its result, and a
pair whose verification throws gets the fallback result (not verified,
confidence 0, no sources, association flags false, `phoneFormatValid`
computed from that pair's phone), with the remaining pairs still
processed. -/
theorem verifyMultiplePhones_spec (env : Nat → Except String PhoneVerificationResult)
    (pairs : List (String × String)) :
    (verifyMultiplePhones env pairs).length = pairs.length
    ∧ (∀ (i : Nat) (p : String × String) (r : PhoneVerificationResult),
        pairs.get? i = some p → env i = Except.ok r →
        (verifyMultiplePhones env pairs).get? i = some r)
    ∧ (∀ (i : Nat) (p : String × String) (e : String),
        pairs.get? i = some p → env i = Except.error e →
        (verifyMultiplePhones env pairs).get? i = some (fallbackResult p.1 p.2)) := by
  refine ⟨verifyMultiplePhonesAux_length env 0 pairs, ?_, ?_⟩
  · intro i p r hp he
    rw [verifyMultiplePhones, verifyMultiplePhonesAux_getElem? env pairs 0 i, hp]
    simp [Nat.zero_add, he]
  · intro i p e hp he
    rw [verifyMultiplePhones, verifyMultiplePhonesAux_getElem? env pairs 0 i, hp]
    simp [Nat.zero_add, he]

/-- Claim C10 witness: a batch of two pairs where the second verification
throws still yields two results in order, the second being the fallback
for its own pair. -/
theorem verifyMultiplePhones_spec_witness :
    (verifyMultiplePhones
      (fun i => if i = 0 then Except.ok (fallbackResult "x" "y") else Except.error "boom")
      [("03-1234-5678", "Acme"), ("bad", "Beta")]).get? 0 =
      some (fallbackResult "x" "y")
    ∧ (verifyMultiplePhones
      (fun i => if i = 0 then Except.ok (fallbackResult "x" "y") else Except.error "boom")
      [("03-1234-5678", "Acme"), ("bad", "Beta")]).get? 1 =
      some (fallbackResult "bad" "Beta") := by
  constructor
  · exact (verifyMultiplePhones_spec
      (fun i => if i = 0 then Except.ok (fallbackResult "x" "y") else Except.error "boom")
      [("03-1234-5678", "Acme"), ("bad", "Beta")]).2.1 0 ("03-1234-5678", "Acme")
      (fallbackResult "x" "y") rfl rfl
  · exact (verifyMultiplePhones_spec
      (fun i => if i = 0 then Except.ok (fallbackResult "x" "y") else Except.error "boom")
      [("03-1234-5678", "Acme"), ("bad", "Beta")]).2.2 1 ("bad", "Beta") "boom" rfl rfl

end PhoneVerificationService

namespace SimpleDuplicateCheck

/-! ## Structure of `stripSuffixes` (toward claim C5) -/

theorem suffixWords_head_first :
    ∀ v ∈ suffixWords, v.get? 0 = some '株' ∨ v.get? 0 = some '有' ∨ v.get? 0 = some '合' := by
  decide

theorem suffixWords_length : ∀ v ∈ suffixWords, v.length = 4 := by decide

theorem suffixWords_chars_gt : ∀ v ∈ suffixWords, ∀ c ∈ v, 12288 < c.toNat := by decide

theorem adminChars_gt : ∀ c ∈ adminChars, 12288 < c.toNat := by decide

theorem isJsWhitespace_toNat {x : Char} (h : isJsWhitespace x = true) :
    x.toNat = 32 ∨ x.toNat = 9 ∨ x.toNat = 10 ∨ x.toNat = 13 ∨
    x.toNat = 11 ∨ x.toNat = 12 ∨ x.toNat = 160 ∨ x.toNat = 12288 := by
  simp only [isJsWhitespace, Bool.or_eq_true, decide_eq_true_eq] at h
  rcases h with ((((((rfl | rfl) | rfl) | rfl) | rfl) | rfl) | rfl) | rfl <;> decide

theorem ws_not_in_suffixWord {c : Char} (h : isJsWhitespace c = true) :
    ∀ v ∈ suffixWords, c ∉ v := by
  intro v hv hc
  have h1 := suffixWords_chars_gt v hv c hc
  have h2 := isJsWhitespace_toNat h
  rcases h2 with h2 | h2 | h2 | h2 | h2 | h2 | h2 | h2 <;> omega

theorem ws_not_admin {c : Char} (h : isJsWhitespace c = true) : c ∉ adminChars := by
  intro hc
  have h1 := adminChars_gt c hc
  have h2 := isJsWhitespace_toNat h
  rcases h2 with h2 | h2 | h2 | h2 | h2 | h2 | h2 | h2 <;> omega

theorem stripSuffixes_short (l : List Char) (h : l.length < 4) : stripSuffixes l = l := by
  rcases l with _ | ⟨a, _ | ⟨b, _ | ⟨c, _ | ⟨d, rest⟩⟩⟩⟩
  · rfl
  · rfl
  · rfl
  · rfl
  · exfalso
    simp only [List.length_cons] at h
    omega

theorem stripSuffixes_cons_of_not_first (c : Char) (l : List Char)
    (h : ¬(c = '株' ∨ c = '有' ∨ c = '合')) :
    stripSuffixes (c :: l) = c :: stripSuffixes l := by
  rcases l with _ | ⟨b, _ | ⟨d, _ | ⟨e, rest⟩⟩⟩
  · rfl
  · rfl
  · rfl
  · have hmem : ¬([c, b, d, e] ∈ suffixWords) := by
      intro hmem
      have h0 := suffixWords_head_first _ hmem
      simp only [List.get?] at h0
      rcases h0 with h0 | h0 | h0 <;>
        exact h (by simp_all)
    simp only [stripSuffixes, if_neg hmem]

theorem stripSuffixes_word_prepend (w : List Char) (hw : w ∈ suffixWords) (l : List Char) :
    stripSuffixes (w ++ l) = stripSuffixes l := by
  have hw5 : w = ['株', '式', '会', '社'] ∨ w = ['有', '限', '会', '社'] ∨
      w = ['合', '同', '会', '社'] ∨ w = ['合', '資', '会', '社'] ∨
      w = ['合', '名', '会', '社'] := by
    simpa [suffixWords] using hw
  rcases hw5 with rfl | rfl | rfl | rfl | rfl <;>
    simp [stripSuffixes, suffixWords]

theorem stripSuffixes_append_word (w : List Char) (hw : w ∈ suffixWords) :
    ∀ l : List Char, stripSuffixes (l ++ w) = stripSuffixes l := by
  have hw5 : w = ['株', '式', '会', '社'] ∨ w = ['有', '限', '会', '社'] ∨
      w = ['合', '同', '会', '社'] ∨ w = ['合', '資', '会', '社'] ∨
      w = ['合', '名', '会', '社'] := by
    simpa [suffixWords] using hw
  intro l
  generalize hn : l.length = n
  induction n using Nat.strong_induction_on generalizing l with
  | _ n ih =>
    rcases l with _ | ⟨a, _ | ⟨b, _ | ⟨c, _ | ⟨d, rest⟩⟩⟩⟩
    · simpa using stripSuffixes_word_prepend w hw []
    · rcases hw5 with rfl | rfl | rfl | rfl | rfl <;>
        simp [stripSuffixes, suffixWords]
    · rcases hw5 with rfl | rfl | rfl | rfl | rfl <;>
        simp [stripSuffixes, suffixWords]
    · rcases hw5 with rfl | rfl | rfl | rfl | rfl <;>
        simp [stripSuffixes, suffixWords]
    · simp only [List.cons_append]
      by_cases hmem : [a, b, c, d] ∈ suffixWords
      · simp only [stripSuffixes, if_pos hmem]
        exact ih rest.length (by simp at hn; omega) rest rfl
      · simp only [stripSuffixes, if_neg hmem]
        rw [show b :: c :: d :: (rest ++ w) = (b :: c :: d :: rest) ++ w from rfl]
        rw [ih (b :: c :: d :: rest).length (by simp at hn ⊢; omega) (b :: c :: d :: rest) rfl]

end SimpleDuplicateCheck

namespace SimpleDuplicateCheck

theorem not_first_of_inert {c : Char} (hc : ∀ v ∈ suffixWords, c ∉ v) :
    ¬(c = '株' ∨ c = '有' ∨ c = '合') := by
  rintro (rfl | rfl | rfl)
  · exact hc ['株', '式', '会', '社'] (by simp [suffixWords]) (by simp)
  · exact hc ['有', '限', '会', '社'] (by simp [suffixWords]) (by simp)
  · exact hc ['合', '同', '会', '社'] (by simp [suffixWords]) (by simp)

theorem stripSuffixes_inert (u : List Char)
    (hu : ∀ c ∈ u, ∀ v ∈ suffixWords, c ∉ v) : stripSuffixes u = u := by
  induction u with
  | nil => rfl
  | cons c u2 ih =>
    rw [stripSuffixes_cons_of_not_first c u2 (not_first_of_inert (hu c (by simp)))]
    rw [ih (fun d hd => hu d (by simp [hd]))]

theorem stripSuffixes_inert_prepend (u : List Char)
    (hu : ∀ c ∈ u, ∀ v ∈ suffixWords, c ∉ v) (l : List Char) :
    stripSuffixes (u ++ l) = u ++ stripSuffixes l := by
  induction u with
  | nil => simp
  | cons c u2 ih =>
    simp only [List.cons_append]
    rw [stripSuffixes_cons_of_not_first c (u2 ++ l) (not_first_of_inert (hu c (by simp)))]
    rw [ih (fun d hd => hu d (by simp [hd]))]

theorem stripSuffixes_append_inert (u : List Char)
    (hu : ∀ c ∈ u, ∀ v ∈ suffixWords, c ∉ v) :
    ∀ l : List Char, stripSuffixes (l ++ u) = stripSuffixes l ++ u := by
  intro l
  generalize hn : l.length = n
  induction n using Nat.strong_induction_on generalizing l with
  | _ n ih =>
    rcases l with _ | ⟨a, _ | ⟨b, _ | ⟨c, _ | ⟨d, rest⟩⟩⟩⟩
    · simpa using stripSuffixes_inert u hu
    · -- l = [a]
      rcases u with _ | ⟨u1, _ | ⟨u2, _ | ⟨u3, ur⟩⟩⟩
      · simp
      · simp [stripSuffixes]
      · simp [stripSuffixes]
      · have hmem : ¬([a, u1, u2, u3] ∈ suffixWords) := fun hmem =>
          hu u1 (by simp) _ hmem (by simp)
        simp only [List.cons_append, List.nil_append, stripSuffixes, if_neg hmem]
        rw [show u1 :: u2 :: u3 :: ur = [] ++ (u1 :: u2 :: u3 :: ur) from rfl]
        rw [ih 0 (by simp at hn; omega) [] rfl]
        simp [stripSuffixes]
    · -- l = [a, b]
      rcases u with _ | ⟨u1, _ | ⟨u2, ur⟩⟩
      · simp
      · simp [stripSuffixes]
      · have hmem : ¬([a, b, u1, u2] ∈ suffixWords) := fun hmem =>
          hu u1 (by simp) _ hmem (by simp)
        simp only [List.cons_append, List.nil_append, stripSuffixes, if_neg hmem]
        rw [show b :: u1 :: u2 :: ur = [b] ++ (u1 :: u2 :: ur) from rfl]
        rw [ih 1 (by simp at hn; omega) [b] rfl]
        simp [stripSuffixes]
    · -- l = [a, b, c]
      rcases u with _ | ⟨u1, ur⟩
      · simp
      · have hmem : ¬([a, b, c, u1] ∈ suffixWords) := fun hmem =>
          hu u1 (by simp) _ hmem (by simp)
        simp only [List.cons_append, List.nil_append, stripSuffixes, if_neg hmem]
        rw [show b :: c :: u1 :: ur = [b, c] ++ (u1 :: ur) from rfl]
        rw [ih 2 (by simp at hn; omega) [b, c] rfl]
        simp [stripSuffixes]
    · -- l = a :: b :: c :: d :: rest
      simp only [List.cons_append]
      by_cases hmem : [a, b, c, d] ∈ suffixWords
      · simp only [stripSuffixes, if_pos hmem]
        exact ih rest.length (by simp at hn; omega) rest rfl
      · simp only [stripSuffixes, if_neg hmem]
        rw [show b :: c :: d :: (rest ++ u) = (b :: c :: d :: rest) ++ u from rfl]
        rw [ih (b :: c :: d :: rest).length (by simp at hn ⊢; omega) (b :: c :: d :: rest) rfl]
        simp

end SimpleDuplicateCheck

namespace SimpleDuplicateCheck

theorem toNat_ofNat_of_valid {n : Nat} (h : n.isValidChar) :
    (Char.ofNat n).toNat = n := by
  rw [Char.ofNat, dif_pos h]
  rfl

theorem toLowerChar_toNat (c : Char) :
    (toLowerChar c).toNat =
      if 65 ≤ c.toNat ∧ c.toNat ≤ 90 then c.toNat + 32 else c.toNat := by
  unfold toLowerChar
  split
  · next h => exact toNat_ofNat_of_valid (Or.inl (by omega))
  · rfl

theorem toLowerChar_fix_of_not_upper {c : Char} (h : ¬(65 ≤ c.toNat ∧ c.toNat ≤ 90)) :
    toLowerChar c = c := by
  unfold toLowerChar
  rw [if_neg h]

theorem toLowerChar_fix_of_gt {c : Char} (h : 12288 < c.toNat) : toLowerChar c = c :=
  toLowerChar_fix_of_not_upper (by omega)

theorem toLowerChar_eq_of_not_lower {c d : Char} (h : toLowerChar c = d)
    (hd : ¬(97 ≤ d.toNat ∧ d.toNat ≤ 122)) : c = d := by
  have ht := toLowerChar_toNat c
  by_cases hc : 65 ≤ c.toNat ∧ c.toNat ≤ 90
  · exfalso
    rw [h, if_pos hc] at ht
    omega
  · exact (toLowerChar_fix_of_not_upper hc).symm.trans h

theorem toLowerChar_eq_kanji {c k : Char} (h : toLowerChar c = k)
    (hk : 12288 < k.toNat) : c = k :=
  toLowerChar_eq_of_not_lower h (by omega)

theorem toLowerChar_idem (c : Char) : toLowerChar (toLowerChar c) = toLowerChar c := by
  apply toLowerChar_fix_of_not_upper
  have ht := toLowerChar_toNat c
  by_cases hc : 65 ≤ c.toNat ∧ c.toNat ≤ 90
  · rw [if_pos hc] at ht
    omega
  · rw [if_neg hc] at ht
    omega

theorem isJsWhitespace_false_of_range {x : Char} (h1 : 65 ≤ x.toNat) (h2 : x.toNat ≤ 122) :
    isJsWhitespace x = false := by
  by_contra h
  have h8 := isJsWhitespace_toNat (x := x) (by simpa using h)
  rcases h8 with h8 | h8 | h8 | h8 | h8 | h8 | h8 | h8 <;> omega

theorem isJsWhitespace_toLowerChar (c : Char) :
    isJsWhitespace (toLowerChar c) = isJsWhitespace c := by
  by_cases hc : 65 ≤ c.toNat ∧ c.toNat ≤ 90
  · have ht := toLowerChar_toNat c
    rw [if_pos hc] at ht
    rw [isJsWhitespace_false_of_range (x := toLowerChar c) (by omega) (by omega),
        isJsWhitespace_false_of_range (x := c) (by omega) (by omega)]
  · rw [toLowerChar_fix_of_not_upper hc]

theorem filter_notWs_map_toLower (l : List Char) :
    (l.map toLowerChar).filter (fun c => !isJsWhitespace c) =
      (l.filter (fun c => !isJsWhitespace c)).map toLowerChar := by
  induction l with
  | nil => rfl
  | cons c l2 ih =>
    simp only [List.map_cons, List.filter_cons, isJsWhitespace_toLowerChar]
    by_cases h : isJsWhitespace c
    · simp [h, ih]
    · simp [h, ih]

theorem stripSuffixes_map_toLower :
    ∀ l : List Char, stripSuffixes (l.map toLowerChar) = (stripSuffixes l).map toLowerChar := by
  intro l
  generalize hn : l.length = n
  induction n using Nat.strong_induction_on generalizing l with
  | _ n ih =>
    rcases l with _ | ⟨a, _ | ⟨b, _ | ⟨c, _ | ⟨d, rest⟩⟩⟩⟩
    · rfl
    · rfl
    · rfl
    · rfl
    · simp only [List.map_cons]
      have hiff : ([toLowerChar a, toLowerChar b, toLowerChar c, toLowerChar d] ∈ suffixWords)
          ↔ ([a, b, c, d] ∈ suffixWords) := by
        constructor
        · intro hmem
          have h5 := hmem
          simp only [suffixWords, List.mem_cons, List.not_mem_nil, or_false,
            List.cons.injEq, and_true] at h5
          rcases h5 with ⟨h1, h2, h3, h4⟩ | ⟨h1, h2, h3, h4⟩ | ⟨h1, h2, h3, h4⟩ |
            ⟨h1, h2, h3, h4⟩ | ⟨h1, h2, h3, h4⟩ <;>
            rw [toLowerChar_eq_kanji h1 (by decide), toLowerChar_eq_kanji h2 (by decide),
              toLowerChar_eq_kanji h3 (by decide), toLowerChar_eq_kanji h4 (by decide)] <;>
            simp [suffixWords]
        · intro hmem
          have h5 := hmem
          simp only [suffixWords, List.mem_cons, List.not_mem_nil, or_false,
            List.cons.injEq, and_true] at h5
          rcases h5 with ⟨h1, h2, h3, h4⟩ | ⟨h1, h2, h3, h4⟩ | ⟨h1, h2, h3, h4⟩ |
            ⟨h1, h2, h3, h4⟩ | ⟨h1, h2, h3, h4⟩ <;>
            subst h1 <;> subst h2 <;> subst h3 <;> subst h4 <;> decide
      by_cases hmem : [a, b, c, d] ∈ suffixWords
      · simp only [stripSuffixes, if_pos hmem, if_pos (hiff.mpr hmem)]
        exact ih rest.length (by simp at hn; omega) rest rfl
      · simp only [stripSuffixes, if_neg hmem, if_neg (fun h => hmem (hiff.mp h))]
        rw [show toLowerChar b :: toLowerChar c :: toLowerChar d :: List.map toLowerChar rest =
          List.map toLowerChar (b :: c :: d :: rest) from rfl]
        rw [ih (b :: c :: d :: rest).length (by simp at hn ⊢; omega) (b :: c :: d :: rest) rfl]
        simp

theorem mem_adminChars_toLowerChar (c : Char) :
    (toLowerChar c ∈ adminChars) ↔ (c ∈ adminChars) := by
  constructor
  · intro h
    have hgt := adminChars_gt _ h
    by_cases hc : 65 ≤ c.toNat ∧ c.toNat ≤ 90
    · exfalso
      have ht := toLowerChar_toNat c
      rw [if_pos hc] at ht
      omega
    · rwa [toLowerChar_fix_of_not_upper hc] at h
  · intro h
    rw [toLowerChar_fix_of_gt (adminChars_gt _ h)]
    exact h

theorem filter_admin_map_toLower (l : List Char) :
    (l.map toLowerChar).filter (fun c => !(decide (c ∈ adminChars))) =
      (l.filter (fun c => !(decide (c ∈ adminChars)))).map toLowerChar := by
  induction l with
  | nil => rfl
  | cons c l2 ih =>
    simp only [List.map_cons, List.filter_cons]
    by_cases h : c ∈ adminChars
    · simp [h, (mem_adminChars_toLowerChar c).mpr h, ih]
    · have h2 : ¬(toLowerChar c ∈ adminChars) := fun hh => h ((mem_adminChars_toLowerChar c).mp hh)
      simp [h, h2, ih]

theorem map_toLower_idem (l : List Char) :
    (l.map toLowerChar).map toLowerChar = l.map toLowerChar := by
  rw [List.map_map]
  exact List.map_congr_left (fun c _ => toLowerChar_idem c)

theorem cleanCompany_map_toLower (l : List Char) :
    cleanCompany (l.map toLowerChar) = cleanCompany l := by
  unfold cleanCompany
  rw [stripSuffixes_map_toLower, filter_notWs_map_toLower, map_toLower_idem]

theorem cleanLocation_map_toLower (l : List Char) :
    cleanLocation (l.map toLowerChar) = cleanLocation l := by
  unfold cleanLocation
  rw [filter_admin_map_toLower, filter_notWs_map_toLower, map_toLower_idem]

end SimpleDuplicateCheck

namespace SimpleDuplicateCheck

theorem filter_notWs_of_allWs {u : List Char} (hu : ∀ c ∈ u, isJsWhitespace c = true) :
    u.filter (fun c => !isJsWhitespace c) = [] :=
  List.filter_eq_nil_iff.mpr (fun c hc => by simp [hu c hc])

theorem cleanCompany_word_prepend (w : List Char) (hw : w ∈ suffixWords) (l : List Char) :
    cleanCompany (w ++ l) = cleanCompany l := by
  unfold cleanCompany
  rw [stripSuffixes_word_prepend w hw]

theorem cleanCompany_word_append (w : List Char) (hw : w ∈ suffixWords) (l : List Char) :
    cleanCompany (l ++ w) = cleanCompany l := by
  unfold cleanCompany
  rw [stripSuffixes_append_word w hw]

theorem cleanCompany_ws_wrap (u v l : List Char)
    (hu : ∀ c ∈ u, isJsWhitespace c = true) (hv : ∀ c ∈ v, isJsWhitespace c = true) :
    cleanCompany (u ++ l ++ v) = cleanCompany l := by
  unfold cleanCompany
  rw [stripSuffixes_append_inert v (fun c hc => ws_not_in_suffixWord (hv c hc)) (u ++ l),
    stripSuffixes_inert_prepend u (fun c hc => ws_not_in_suffixWord (hu c hc)) l,
    List.filter_append, List.filter_append, filter_notWs_of_allWs hu,
    filter_notWs_of_allWs hv]
  simp

theorem cleanLocation_insert (u v : List Char) (c : Char)
    (h : c ∈ adminChars ∨ isJsWhitespace c = true) :
    cleanLocation (u ++ c :: v) = cleanLocation (u ++ v) := by
  unfold cleanLocation
  rcases h with h | h
  · simp [List.filter_append, List.filter_cons, h]
  · have hna : c ∉ adminChars := ws_not_admin h
    simp [List.filter_append, List.filter_cons, h, hna]

end SimpleDuplicateCheck

namespace SimpleDuplicateCheck

/-- Claim C5 counterexample: the two company names `株式会社A` and
`株 式会社A` differ only by one whitespace character, yet produce
different fingerprint keys: suffix stripping runs before whitespace
removal, so a legal-entity suffix interrupted by whitespace is not
stripped. The claim's unrestricted whitespace invariance is therefore
false on the code. -/
theorem createSimpleKey_whitespace_counterexample :
    createSimpleKey "株式会社A" "東京都" ≠ createSimpleKey "株 式会社A" "東京都" := by
  decide

/-- Claim C5 (amended): `createSimpleKey` is invariant under prepending or
appending whole legal-entity suffix words to the name, adding leading or
trailing whitespace to the name, lowercasing (hence any two inputs that
agree after character-wise lowercasing share a key), and — anywhere in the
location — inserting administrative-unit suffix characters or whitespace.
Whitespace interior to the name is excluded: inserted inside a suffix word
it defeats the stripping (see the counterexample). -/
theorem createSimpleKey_amended_invariance :
    (∀ w ∈ suffixWords, ∀ (n l : String),
      createSimpleKey ⟨w ++ n.data⟩ l = createSimpleKey n l
      ∧ createSimpleKey ⟨n.data ++ w⟩ l = createSimpleKey n l)
    ∧ (∀ (u v : List Char), (∀ c ∈ u, isJsWhitespace c = true) →
        (∀ c ∈ v, isJsWhitespace c = true) → ∀ (n l : String),
        createSimpleKey ⟨u ++ n.data ++ v⟩ l = createSimpleKey n l)
    ∧ (∀ (n l : String),
        createSimpleKey ⟨n.data.map toLowerChar⟩ ⟨l.data.map toLowerChar⟩ =
          createSimpleKey n l)
    ∧ (∀ (u v : List Char) (c : Char), (c ∈ adminChars ∨ isJsWhitespace c = true) →
        ∀ (n : String),
        createSimpleKey n ⟨u ++ c :: v⟩ = createSimpleKey n ⟨u ++ v⟩) := by
  refine ⟨?_, ?_, ?_, ?_⟩
  · intro w hw n l
    constructor
    · simp only [createSimpleKey]
      rw [cleanCompany_word_prepend w hw]
    · simp only [createSimpleKey]
      rw [cleanCompany_word_append w hw]
  · intro u v hu hv n l
    simp only [createSimpleKey]
    rw [cleanCompany_ws_wrap u v n.data hu hv]
  · intro n l
    simp only [createSimpleKey]
    rw [cleanCompany_map_toLower, cleanLocation_map_toLower]
  · intro u v c h n
    simp only [createSimpleKey]
    rw [cleanLocation_insert u v c h]

/-- Claim C5 amended witness: concrete instances of the amended invariance —
a prepended 株式会社, wrapping whitespace, lowercasing, and an inserted
prefecture suffix character. -/
theorem createSimpleKey_amended_invariance_witness :
    createSimpleKey ⟨['株', '式', '会', '社'] ++ ("Acme" : String).data⟩ "東京都" =
      createSimpleKey "Acme" "東京都"
    ∧ createSimpleKey ⟨[' '] ++ ("Acme" : String).data ++ [' ']⟩ "東京都" =
      createSimpleKey "Acme" "東京都"
    ∧ createSimpleKey "Acme" ⟨("東京" : String).data ++ '都' :: []⟩ =
      createSimpleKey "Acme" ⟨("東京" : String).data ++ []⟩ := by
  refine ⟨?_, ?_, ?_⟩
  · exact (createSimpleKey_amended_invariance.1 ['株', '式', '会', '社']
      (by decide) "Acme" "東京都").1
  · exact createSimpleKey_amended_invariance.2.1 [' '] [' ']
      (by decide) (by decide) "Acme" "東京都"
  · exact createSimpleKey_amended_invariance.2.2.2 ("東京" : String).data [] '都'
      (by decide) "Acme"

end SimpleDuplicateCheck
